import Mathlib

set_option maxRecDepth 8192

/-!
# Verification of the `led-matrix-driver` crate

A shallow embedding of `src/lib.rs`: the bit-plane encoder `prepare_row`,
the hardware write sequence `write_layer` / `write_row`, and the full
`scan` pass, modelled as state-passing functions over an explicit driver
state that records pin levels and an event trace.

Conventions:
* `u8` values are `Nat` (values produced by the encoder are `< 256`);
  the byte inversion `!data` is modelled as `(b % 256) ^^^ 255`.
* `u16` arithmetic carries an explicit `% 65536` where the Rust shift
  would discard high bits.
* Fallible hardware operations consume an injection schedule held in the
  state: `none` means the operation succeeds, `some e` means it fails with
  error detail `e`.  An empty schedule means every operation succeeds.
* Rust panics (the `assert!` in `prepare_row`, out-of-bounds indexing)
  are modelled as `Option.none`.
-/

namespace LedMatrix

def ROW_BITS : Nat := 3
def COL_BITS : Nat := 4
def LAYER_BITS : Nat := 4
def NUM_ROWS : Nat := 1 <<< ROW_BITS
def NUM_COLS : Nat := 1 <<< COL_BITS
def SPI_BYTES : Nat := NUM_COLS / 8

/-- The five output pins of `LEDArray`: three row-select pins, the shift
register latch (`reg_pin`) and `output_disable`. -/
inductive PinId where
  | row0
  | row1
  | row2
  | reg
  | od
deriving DecidableEq, Repr

/-- Observable hardware events emitted by the driver. -/
inductive Ev where
  | pinSet (p : PinId) (v : Bool)
  | spiSend (b : Nat)
  | timerWait
  | timerStart (shift : Nat)
deriving DecidableEq, Repr

/-- `LEDError` from the source: a pin error or an SPI (transport) error,
each carrying the underlying error detail. -/
inductive LEDError where
  | PinError (e : Nat)
  | SPIError (e : Nat)
deriving DecidableEq, Repr

/-- Driver state: current pin levels, fault-injection schedules for pin
and SPI operations, the event trace so far, and the brightness grid
(`array` field of `LEDArray`, 8 rows of 16 `u8` entries). -/
structure St where
  row0 : Bool
  row1 : Bool
  row2 : Bool
  reg : Bool
  od : Bool
  pinSched : List (Option Nat)
  spiSched : List (Option Nat)
  trace : List Ev
  array : List (List Nat)
deriving DecidableEq, Repr

/-- A stateful driver computation: returns `some err` on failure, and the
updated state either way (the Rust `self` persists across a failed call). -/
def StM : Type := St → Option LEDError × St

def skipM : StM := fun s => (none, s)

/-- Sequencing with early exit on error, mirroring Rust's `?`. -/
def seqM (m k : StM) : StM := fun s =>
  match m s with
  | (some e, s1) => (some e, s1)
  | (none, s1) => k s1

def setPinLevel (s : St) (p : PinId) (v : Bool) : St :=
  match p with
  | .row0 => { s with row0 := v }
  | .row1 => { s with row1 := v }
  | .row2 => { s with row2 := v }
  | .reg => { s with reg := v }
  | .od => { s with od := v }

/-- Drive one pin (`set_pin` in the source, plus the `LEDError::PinError`
wrapping done at every call site in `write_layer`).  Consumes one entry of
the pin fault schedule; on failure the pin level is unchanged and no event
is emitted. -/
def set_pin (p : PinId) (v : Bool) : StM := fun s =>
  match s.pinSched with
  | [] => (none, { setPinLevel s p v with trace := s.trace ++ [Ev.pinSet p v] })
  | none :: rest =>
      (none, { setPinLevel s p v with pinSched := rest, trace := s.trace ++ [Ev.pinSet p v] })
  | some e :: rest => (some (.PinError e), { s with pinSched := rest })

/-- `2^8 - 1 - b` for a byte: the Rust `!data` bitwise inversion on `u8`. -/
def invByte (b : Nat) : Nat := (b % 256) ^^^ 255

/-- One `block!(self.spi.send(word))`, already wrapped in
`LEDError::SPIError`.  The word transmitted is recorded in the trace. -/
def spi_send (word : Nat) : StM := fun s =>
  match s.spiSched with
  | [] => (none, { s with trace := s.trace ++ [Ev.spiSend word] })
  | none :: rest =>
      (none, { s with spiSched := rest, trace := s.trace ++ [Ev.spiSend word] })
  | some e :: rest => (some (.SPIError e), { s with spiSched := rest })

/-- `block!(self.timer.wait()).unwrap()`: the error type is `Void`, so the
busy-poll always eventually succeeds; it is one observable event. -/
def timer_wait : StM := fun s =>
  (none, { s with trace := s.trace ++ [Ev.timerWait] })

/-- `self.timer.start(base_freq << shift)`: the armed duration is recorded
by its shift amount, since `base_freq` is an abstract generic quantity. -/
def timer_start (shift : Nat) : StM := fun s =>
  (none, { s with trace := s.trace ++ [Ev.timerStart shift] })

/-- Bit `i` of the row index, as written in `write_row`:
`((row >> i) & 1) == 1`. -/
def rowBit (r i : Nat) : Bool := (r >>> i) &&& 1 == 1

/-- `write_row`: drive the three row-select pins to the binary encoding of
`row`, lowest pin = bit 0. -/
def write_row (row : Nat) : StM :=
  seqM (set_pin .row0 (rowBit row 0))
    (seqM (set_pin .row1 (rowBit row 1))
      (set_pin .row2 (rowBit row 2)))

/-- The SPI loop of `write_layer`: send each byte, bit-inverted. -/
def sendLayer : List Nat → StM
  | [] => skipM
  | b :: rest => seqM (spi_send (invByte b)) (sendLayer rest)

/-- `write_layer` from the source: drop the latch, shift the (inverted)
bytes out, wait out the previous layer's timer, then either just latch
(`row = none`) or blank, re-address the row, latch, and unblank
(`row = some r`). -/
def write_layer (layer : List Nat) (row : Option Nat) : StM :=
  seqM (set_pin .reg false)
    (seqM (sendLayer layer)
      (seqM timer_wait
        (match row with
         | none => set_pin .reg true
         | some r =>
             seqM (set_pin .od true)
               (seqM (write_row r)
                 (seqM (set_pin .reg true)
                   (set_pin .od false))))))

/-- The inner fold of `prepare_row` for one bit plane: iterate the row in
reverse, and for each brightness value push bit `layer` of it into a
16-bit accumulator (`output = (output << 1) + ((b % (2 << layer)) >> layer)`). -/
def planeWord (row : List Nat) (layer : Nat) : Nat :=
  row.reverse.foldl
    (fun output brightness =>
      ((output <<< 1) % 65536) + (brightness % (2 <<< layer)) >>> layer)
    0

/-- `u16::to_be_bytes`: big-endian byte pair of a 16-bit word. -/
def planeBytes (w : Nat) : List Nat := [w / 256 % 256, w % 256]

/-- `prepare_row`: `assert!(r < NUM_ROWS)` and the `self.array[r]` index
are modelled as `none` (panic); otherwise produce the `LAYER_BITS` planes
of the addressed row. -/
def prepare_row (array : List (List Nat)) (r : Nat) : Option (List (List Nat)) :=
  if r < NUM_ROWS then
    (array[r]?).map (fun row =>
      (List.range LAYER_BITS).map (fun layer => planeBytes (planeWord row layer)))
  else none

/-- The body of `scan` for one (row, layer) pair: write the plane, passing
`some row` exactly when `layer = 0`, then arm the timer with
`base_freq << (LAYER_BITS - layer - 1)`. -/
def scanStep (layers : List (List Nat)) (r layer : Nat) : StM :=
  seqM
    (write_layer (layers.getD layer []) (if layer == 0 then some r else none))
    (timer_start (LAYER_BITS - layer - 1))

/-- The body of `scan` for one row: encode the row with `prepare_row`
(whose success is guaranteed there since `r` ranges over `0..NUM_ROWS`),
then write the `LAYER_BITS` planes in ascending order. -/
def scanRow (r : Nat) : StM := fun s =>
  ((List.range LAYER_BITS).foldl
    (fun m layer => seqM m (scanStep ((prepare_row s.array r).getD []) r layer))
    skipM) s

/-- `scan`: for each row in ascending order, encode it and write its
planes. -/
def scan : StM := fun s =>
  ((List.range NUM_ROWS).foldl (fun m r => seqM m (scanRow r)) skipM) s

/-- The plane that `scan` obtains for `(r, layer)` from `prepare_row`:
the byte pair of the bit-plane word of row `r` of the grid. -/
def planeOf (array : List (List Nat)) (r layer : Nat) : List Nat :=
  planeBytes (planeWord (array.getD r []) layer)

/-- The exact event sequence of one successful `write_layer` call. -/
def writeLayerTrace (layer : List Nat) (row : Option Nat) : List Ev :=
  Ev.pinSet .reg false :: layer.map (fun b => Ev.spiSend (invByte b)) ++ Ev.timerWait ::
    (match row with
     | none => [Ev.pinSet .reg true]
     | some r =>
         [Ev.pinSet .od true,
          Ev.pinSet .row0 (rowBit r 0), Ev.pinSet .row1 (rowBit r 1), Ev.pinSet .row2 (rowBit r 2),
          Ev.pinSet .reg true, Ev.pinSet .od false])

/-- The exact event sequence of one row of a successful `scan` pass. -/
def rowTrace (array : List (List Nat)) (r : Nat) : List Ev :=
  (List.range LAYER_BITS).flatMap (fun layer =>
    writeLayerTrace (planeOf array r layer) (if layer == 0 then some r else none)
      ++ [Ev.timerStart (LAYER_BITS - layer - 1)])

/-- The exact event sequence of a successful `scan` pass. -/
def scanTrace (array : List (List Nat)) : List Ev :=
  (List.range NUM_ROWS).flatMap (rowTrace array)

/-- The row used by the crate's own `test_prepare_row` test. -/
def testRow : List Nat := [15, 14, 13, 12, 11, 10, 9, 8, 7, 6, 5, 4, 3, 2, 1, 0]

/-- A grid holding `testRow` in every row, as in `test_prepare_row`. -/
def testGrid : List (List Nat) := List.replicate 8 testRow

/-- An all-off grid with well-formed dimensions. -/
def zeroGrid : List (List Nat) := List.replicate 8 (List.replicate 16 0)

/-- An initial driver state with all pins low, no injected faults. -/
def st0 : St :=
  { row0 := false, row1 := false, row2 := false, reg := false, od := false,
    pinSched := [], spiSched := [], trace := [], array := testGrid }

/-! ## Behaviour of `write_layer` when no fault is injected -/

theorem sendLayer_ok (layer : List Nat) (s : St) (h : s.spiSched = []) :
    sendLayer layer s =
      (none, { s with trace := s.trace ++ layer.map (fun b => Ev.spiSend (invByte b)) }) := by
  induction layer generalizing s with
  | nil => simp [sendLayer, skipM]
  | cons b rest ih =>
      simp only [sendLayer, seqM, spi_send, h, List.map_cons]
      rw [ih _ (by simp [h])]
      simp

theorem write_layer_ok (layer : List Nat) (row : Option Nat) (s : St)
    (h1 : s.pinSched = []) (h2 : s.spiSched = []) :
    write_layer layer row s =
      (none,
        match row with
        | none => { s with reg := true, trace := s.trace ++ writeLayerTrace layer none }
        | some r =>
            { s with row0 := rowBit r 0, row1 := rowBit r 1, row2 := rowBit r 2,
                     reg := true, od := false,
                     trace := s.trace ++ writeLayerTrace layer (some r) }) := by
  cases row with
  | none =>
      simp only [write_layer, seqM, set_pin, setPinLevel, h1, timer_wait]
      rw [sendLayer_ok _ _ (by simp [h2])]
      simp [writeLayerTrace]
  | some r =>
      simp only [write_layer, seqM, set_pin, setPinLevel, h1, timer_wait, write_row]
      rw [sendLayer_ok _ _ (by simp [h2])]
      simp [writeLayerTrace]

/-! ## Behaviour of a fault-free `scan` pass -/

theorem seqM_assoc (a b c : StM) : seqM (seqM a b) c = seqM a (seqM b c) := by
  funext s
  simp only [seqM]
  rcases a s with ⟨e, s1⟩
  cases e <;> rfl

theorem seqM_skip (k : StM) : seqM skipM k = k := by
  funext s
  rfl

theorem seqM_ok (m k : StM) (s s' : St) (h : m s = (none, s')) : seqM m k s = k s' := by
  simp only [seqM, h]

theorem prepare_row_eq (array : List (List Nat)) (r : Nat)
    (h : array.length = NUM_ROWS) (hr : r < NUM_ROWS) :
    prepare_row array r =
      some ((List.range LAYER_BITS).map
        (fun layer => planeBytes (planeWord (array.getD r []) layer))) := by
  have hlt : r < array.length := by rw [h]; exact hr
  simp [prepare_row, hr, List.getElem?_eq_getElem hlt, List.getD_eq_getElem?_getD]

theorem scanStep_zero_ok (layers : List (List Nat)) (r : Nat) (s : St)
    (h1 : s.pinSched = []) (h2 : s.spiSched = []) :
    scanStep layers r 0 s =
      (none, { s with row0 := rowBit r 0, row1 := rowBit r 1, row2 := rowBit r 2,
                      reg := true, od := false,
                      trace := s.trace ++
                        (writeLayerTrace (layers.getD 0 []) (some r) ++ [Ev.timerStart 3]) }) := by
  simp only [scanStep]
  rw [seqM_ok _ _ _ _ (write_layer_ok _ _ _ h1 h2)]
  simp [timer_start, LAYER_BITS]

theorem scanStep_pos_ok (layers : List (List Nat)) (r layer : Nat) (s : St)
    (h1 : s.pinSched = []) (h2 : s.spiSched = []) (hl : (layer == 0) = false) :
    scanStep layers r layer s =
      (none, { s with reg := true,
                      trace := s.trace ++
                        (writeLayerTrace (layers.getD layer []) none ++
                          [Ev.timerStart (LAYER_BITS - layer - 1)]) }) := by
  simp only [scanStep, hl, if_false]
  rw [seqM_ok _ _ _ _ (write_layer_ok _ _ _ h1 h2)]
  simp [timer_start]

theorem scanRow_ok (r : Nat) (s : St) (h1 : s.pinSched = []) (h2 : s.spiSched = [])
    (h3 : s.array.length = NUM_ROWS) (hr : r < NUM_ROWS) :
    scanRow r s =
      (none, { s with row0 := rowBit r 0, row1 := rowBit r 1, row2 := rowBit r 2,
                      reg := true, od := false,
                      trace := s.trace ++ rowTrace s.array r }) := by
  have hrange : List.range LAYER_BITS = [0, 1, 2, 3] := rfl
  simp only [scanRow, hrange, List.foldl_cons, List.foldl_nil, seqM_assoc, seqM_skip,
    prepare_row_eq s.array r h3 hr, Option.getD_some, List.map_eq_map]
  rw [seqM_ok _ _ _ _ (scanStep_zero_ok _ _ _ h1 h2)]
  rw [seqM_ok _ _ _ _ (scanStep_pos_ok _ _ 1 _ (by simp [h1]) (by simp [h2]) rfl)]
  rw [seqM_ok _ _ _ _ (scanStep_pos_ok _ _ 2 _ (by simp [h1]) (by simp [h2]) rfl)]
  rw [scanStep_pos_ok _ _ 3 _ (by simp [h1]) (by simp [h2]) rfl]
  simp [rowTrace, planeOf, LAYER_BITS, List.range, List.range.loop]

theorem scan_ok (s : St) (h1 : s.pinSched = []) (h2 : s.spiSched = [])
    (h3 : s.array.length = NUM_ROWS) :
    scan s =
      (none, { s with row0 := rowBit 7 0, row1 := rowBit 7 1, row2 := rowBit 7 2,
                      reg := true, od := false,
                      trace := s.trace ++ scanTrace s.array }) := by
  have hrange : List.range NUM_ROWS = [0, 1, 2, 3, 4, 5, 6, 7] := rfl
  simp only [scan, hrange, List.foldl_cons, List.foldl_nil, seqM_assoc, seqM_skip]
  rw [seqM_ok _ _ _ _ (scanRow_ok 0 _ h1 h2 h3 (by decide))]
  rw [seqM_ok _ _ _ _ (scanRow_ok 1 _ (by simp [h1]) (by simp [h2]) (by simp [h3]) (by decide))]
  rw [seqM_ok _ _ _ _ (scanRow_ok 2 _ (by simp [h1]) (by simp [h2]) (by simp [h3]) (by decide))]
  rw [seqM_ok _ _ _ _ (scanRow_ok 3 _ (by simp [h1]) (by simp [h2]) (by simp [h3]) (by decide))]
  rw [seqM_ok _ _ _ _ (scanRow_ok 4 _ (by simp [h1]) (by simp [h2]) (by simp [h3]) (by decide))]
  rw [seqM_ok _ _ _ _ (scanRow_ok 5 _ (by simp [h1]) (by simp [h2]) (by simp [h3]) (by decide))]
  rw [seqM_ok _ _ _ _ (scanRow_ok 6 _ (by simp [h1]) (by simp [h2]) (by simp [h3]) (by decide))]
  rw [scanRow_ok 7 _ (by simp [h1]) (by simp [h2]) (by simp [h3]) (by decide)]
  simp [scanTrace, NUM_ROWS, ROW_BITS, List.range, List.range.loop]

/-! ## Structure of the bit-plane encoder -/

/-- The bit contributed by one brightness value to plane `p`:
`(b % (2 << p)) >> p` from the source. -/
def bitOf (p b : Nat) : Nat := (b % (2 <<< p)) >>> p

/-- The accumulator loop of `prepare_row`, as a right fold (the source
iterates the row reversed with a left fold, so the head of the list is
processed last and lands in the least-significant bit). -/
def encAux (p : Nat) : List Nat → Nat
  | [] => 0
  | b :: t => ((encAux p t <<< 1) % 65536) + bitOf p b

theorem planeWord_eq_encAux (row : List Nat) (p : Nat) :
    planeWord row p = encAux p row := by
  unfold planeWord
  rw [List.foldl_reverse]
  induction row with
  | nil => rfl
  | cons b t ih => simp only [List.foldr_cons, encAux, bitOf, ih]

theorem bitOf_eq_div_mod (p b : Nat) : bitOf p b = b / 2 ^ p % 2 := by
  unfold bitOf
  rw [Nat.shiftRight_eq_div_pow, Nat.shiftLeft_eq, Nat.mul_comm 2 (2 ^ p),
    Nat.mod_mul_right_div_self]

theorem bitOf_lt_two (p b : Nat) : bitOf p b < 2 := by
  rw [bitOf_eq_div_mod]
  exact Nat.mod_lt _ (by decide)

theorem encAux_lt (p : Nat) (l : List Nat) (h : l.length ≤ 16) :
    encAux p l < 2 ^ l.length := by
  induction l with
  | nil => simp [encAux]
  | cons b t ih =>
      have ht : t.length ≤ 16 := by simp at h ⊢; omega
      have h1 : encAux p t < 2 ^ t.length := ih ht
      have h2 : 2 ^ t.length ≤ 2 ^ 15 := by
        apply Nat.pow_le_pow_right (by decide)
        simp at h; omega
      have hsh : encAux p t <<< 1 = 2 * encAux p t := by
        rw [Nat.shiftLeft_eq]; ring
      have hlt : 2 * encAux p t < 65536 := by
        have : (2 : Nat) ^ 15 = 32768 := by norm_num
        omega
      have hb := bitOf_lt_two p b
      simp only [encAux, hsh, Nat.mod_eq_of_lt hlt, List.length_cons, pow_succ]
      omega

theorem encAux_testBit (p : Nat) (l : List Nat) (h : l.length ≤ 16) (c : Nat)
    (hc : c < l.length) :
    Nat.testBit (encAux p l) c = Nat.testBit (l.getD c 0) p := by
  induction l generalizing c with
  | nil => simp at hc
  | cons b t ih =>
      have ht : t.length ≤ 16 := by simp at h; omega
      have h1 : encAux p t < 2 ^ t.length := encAux_lt p t ht
      have h2 : 2 ^ t.length ≤ 2 ^ 15 := by
        apply Nat.pow_le_pow_right (by decide)
        simp at h; omega
      have hsh : encAux p t <<< 1 = 2 * encAux p t := by
        rw [Nat.shiftLeft_eq]; ring
      have hlt : 2 * encAux p t < 65536 := by
        have : (2 : Nat) ^ 15 = 32768 := by norm_num
        omega
      have hb := bitOf_lt_two p b
      cases c with
      | zero =>
          simp only [encAux, hsh, Nat.mod_eq_of_lt hlt, List.getD_cons_zero]
          rw [Nat.testBit_to_div_mod, Nat.testBit_to_div_mod, bitOf_eq_div_mod p b]
          have hmod : (2 * encAux p t + b / 2 ^ p % 2) / 2 ^ 0 % 2 = b / 2 ^ p % 2 := by
            simp only [pow_zero, Nat.div_one, Nat.mul_add_mod]
            omega
          rw [hmod]
      | succ c' =>
          simp only [encAux, hsh, Nat.mod_eq_of_lt hlt, List.getD_cons_succ]
          rw [Nat.testBit_succ]
          have hdiv : (2 * encAux p t + bitOf p b) / 2 = encAux p t := by omega
          rw [hdiv]
          exact ih ht c' (by simp at hc; omega)

/-- Column `c` of plane `p`: bit `c` of the plane word is bit `p` of the
brightness value of column `c` (mod 16). -/
theorem planeWord_testBit (row : List Nat) (p : Nat) (hp : p < LAYER_BITS)
    (c : Nat) (hc : c < row.length) (hlen : row.length ≤ 16) :
    Nat.testBit (planeWord row p) c = Nat.testBit (row.getD c 0 % 16) p := by
  rw [planeWord_eq_encAux, encAux_testBit p row hlen c hc]
  have h16 : (16 : Nat) = 2 ^ 4 := by norm_num
  rw [h16, Nat.testBit_mod_two_pow]
  have : p < 4 := hp
  simp [this]

theorem bitOf_mod16 (p b : Nat) (hp : p < 4) : bitOf p (b % 16) = bitOf p b := by
  unfold bitOf
  have hdvd : (2 <<< p) ∣ 16 := by
    rw [Nat.shiftLeft_eq]
    have : (16 : Nat) = 2 * 2 ^ 3 := by norm_num
    rw [this]
    exact Nat.mul_dvd_mul_left 2 (Nat.pow_dvd_pow 2 (by omega))
  rw [Nat.mod_mod_of_dvd b hdvd]

theorem encAux_mod16 (p : Nat) (hp : p < 4) (l : List Nat) :
    encAux p (l.map (fun b => b % 16)) = encAux p l := by
  induction l with
  | nil => rfl
  | cons b t ih => simp only [List.map_cons, encAux, ih, bitOf_mod16 p b hp]

/-! ## Behaviour of `write_layer` under injected faults -/

theorem seqM_err (m k : StM) (s s' : St) (e : LEDError) (h : m s = (some e, s')) :
    seqM m k s = (some e, s') := by
  simp only [seqM, h]

theorem set_pin_consume_ok (p : PinId) (v : Bool) (s : St) (tail : List (Option Nat))
    (h : s.pinSched = none :: tail) :
    set_pin p v s =
      (none, { setPinLevel s p v with pinSched := tail, trace := s.trace ++ [Ev.pinSet p v] }) := by
  simp [set_pin, h]

theorem set_pin_fail (p : PinId) (v : Bool) (s : St) (e : Nat) (tail : List (Option Nat))
    (h : s.pinSched = some e :: tail) :
    set_pin p v s = (some (.PinError e), { s with pinSched := tail }) := by
  simp [set_pin, h]

theorem sendLayer_fail (k e : Nat) (rest : List (Option Nat)) (layer : List Nat) (s : St)
    (h : s.spiSched = List.replicate k none ++ some e :: rest) (hk : k < layer.length) :
    sendLayer layer s =
      (some (.SPIError e),
        { s with spiSched := rest,
                 trace := s.trace ++ (layer.take k).map (fun b => Ev.spiSend (invByte b)) }) := by
  induction layer generalizing k s with
  | nil => simp at hk
  | cons b t ih =>
      cases k with
      | zero =>
          simp only [List.replicate, List.nil_append] at h
          simp [sendLayer, seqM, spi_send, h]
      | succ k' =>
          have h' : s.spiSched = none :: (List.replicate k' none ++ some e :: rest) := by
            rw [h, List.replicate_succ, List.cons_append]
          simp only [sendLayer, seqM, spi_send, h']
          rw [ih k' _ (by simp) (by simp at hk; omega)]
          simp

/-- An SPI fault on byte `k` (0-based) of the plane aborts `write_layer`:
the error is `SPIError e`, exactly the first `k` bytes were transmitted,
and the latch line is left deasserted (the initial latch drop is the only
latch event of the aborted call). -/
theorem write_layer_spi_fail (layer : List Nat) (row : Option Nat) (k e : Nat)
    (rest : List (Option Nat)) (s : St)
    (h1 : s.pinSched = []) (h2 : s.spiSched = List.replicate k none ++ some e :: rest)
    (hk : k < layer.length) :
    write_layer layer row s =
      (some (.SPIError e),
        { s with reg := false, spiSched := rest,
                 trace := s.trace ++
                   Ev.pinSet .reg false :: (layer.take k).map (fun b => Ev.spiSend (invByte b)) }) := by
  have hstep : set_pin PinId.reg false s =
      (none, { s with reg := false, trace := s.trace ++ [Ev.pinSet PinId.reg false] }) := by
    simp [set_pin, setPinLevel, h1]
  simp only [write_layer]
  rw [seqM_ok _ _ _ _ hstep]
  rw [seqM_err _ _ _ _ _ (sendLayer_fail k e rest layer _ (by simp [h2]) hk)]
  simp

/-- A pin fault at pin-operation index `j` of the row-switch path of
`write_layer` (indices: 0 = latch drop, 1 = blank, 2–4 = row pins,
5 = latch, 6 = unblank; so `2 ≤ j ≤ 5` is a fault after blanking, while
addressing or latching): the call aborts with `PinError e`, output-disable
is left asserted, the latch is left deasserted, and no latch-assert or
unblank event is ever emitted. -/
theorem write_layer_pin_fail (layer : List Nat) (r j e : Nat)
    (rest : List (Option Nat)) (s : St)
    (h1 : s.pinSched = List.replicate j none ++ some e :: rest) (h2 : s.spiSched = [])
    (hj2 : 2 ≤ j) (hj5 : j ≤ 5) :
    (write_layer layer (some r) s).1 = some (.PinError e) ∧
    (write_layer layer (some r) s).2.od = true ∧
    (write_layer layer (some r) s).2.reg = false ∧
    Ev.pinSet .reg true ∉ (write_layer layer (some r) s).2.trace.drop s.trace.length ∧
    Ev.pinSet .od false ∉ (write_layer layer (some r) s).2.trace.drop s.trace.length := by
  interval_cases j
  · rw [show List.replicate 2 (none : Option Nat) = [none, none] from rfl] at h1
    simp [write_layer, seqM, write_row, set_pin, setPinLevel, timer_wait, sendLayer_ok, h1, h2,
      List.drop_left]
  · rw [show List.replicate 3 (none : Option Nat) = [none, none, none] from rfl] at h1
    simp [write_layer, seqM, write_row, set_pin, setPinLevel, timer_wait, sendLayer_ok, h1, h2,
      List.drop_left]
  · rw [show List.replicate 4 (none : Option Nat) = [none, none, none, none] from rfl] at h1
    simp [write_layer, seqM, write_row, set_pin, setPinLevel, timer_wait, sendLayer_ok, h1, h2,
      List.drop_left]
  · rw [show List.replicate 5 (none : Option Nat) = [none, none, none, none, none] from rfl] at h1
    simp [write_layer, seqM, write_row, set_pin, setPinLevel, timer_wait, sendLayer_ok, h1, h2,
      List.drop_left]

/-! ## Trace observations -/

/-- Is this event the timer busy-wait performed inside `write_layer`? -/
def isWait : Ev → Bool
  | .timerWait => true
  | _ => false

/-- Is this event an arming of the timer (`timer.start`)? -/
def isStart : Ev → Bool
  | .timerStart _ => true
  | _ => false

/-- The shift amount of a timer-arming event, if any. -/
def startShift : Ev → Option Nat
  | .timerStart k => some k
  | _ => none

theorem countP_isWait_writeLayerTrace (l : List Nat) (row : Option Nat) :
    (writeLayerTrace l row).countP isWait = 1 := by
  cases row <;>
    simp [writeLayerTrace, isWait, List.countP_cons, List.countP_append, List.countP_map,
      Function.comp_def]

theorem countP_isStart_writeLayerTrace (l : List Nat) (row : Option Nat) :
    (writeLayerTrace l row).countP isStart = 0 := by
  cases row <;>
    simp [writeLayerTrace, isStart, List.countP_cons, List.countP_append, List.countP_map,
      Function.comp_def]

theorem startShift_writeLayerTrace (l : List Nat) (row : Option Nat) :
    (writeLayerTrace l row).filterMap startShift = [] := by
  cases row <;>
    simp [writeLayerTrace, startShift, List.filterMap_cons, List.filterMap_append,
      List.filterMap_map, Function.comp_def]

theorem countP_isWait_rowTrace (a : List (List Nat)) (r : Nat) :
    (rowTrace a r).countP isWait = LAYER_BITS := by
  simp [rowTrace, show List.range 4 = [0, 1, 2, 3] from rfl, List.flatMap_cons, List.flatMap_nil,
    List.countP_append, countP_isWait_writeLayerTrace, isWait, LAYER_BITS]

theorem countP_isStart_rowTrace (a : List (List Nat)) (r : Nat) :
    (rowTrace a r).countP isStart = LAYER_BITS := by
  simp [rowTrace, show List.range 4 = [0, 1, 2, 3] from rfl, List.flatMap_cons, List.flatMap_nil,
    List.countP_append, countP_isStart_writeLayerTrace, isStart, LAYER_BITS]

theorem startShift_rowTrace (a : List (List Nat)) (r : Nat) :
    (rowTrace a r).filterMap startShift = [3, 2, 1, 0] := by
  simp [rowTrace, show List.range 4 = [0, 1, 2, 3] from rfl, List.flatMap_cons, List.flatMap_nil,
    List.filterMap_append, startShift_writeLayerTrace, startShift, LAYER_BITS]

theorem countP_isWait_scanTrace (a : List (List Nat)) :
    (scanTrace a).countP isWait = NUM_ROWS * LAYER_BITS := by
  simp [scanTrace, show List.range 8 = [0, 1, 2, 3, 4, 5, 6, 7] from rfl, List.flatMap_cons, List.flatMap_nil,
    List.countP_append, countP_isWait_rowTrace, NUM_ROWS, ROW_BITS, LAYER_BITS]

theorem countP_isStart_scanTrace (a : List (List Nat)) :
    (scanTrace a).countP isStart = NUM_ROWS * LAYER_BITS := by
  simp [scanTrace, show List.range 8 = [0, 1, 2, 3, 4, 5, 6, 7] from rfl, List.flatMap_cons, List.flatMap_nil,
    List.countP_append, countP_isStart_rowTrace, NUM_ROWS, ROW_BITS, LAYER_BITS]

theorem startShift_scanTrace (a : List (List Nat)) :
    (scanTrace a).filterMap startShift =
      (List.range NUM_ROWS).flatMap (fun _ => [3, 2, 1, 0]) := by
  simp [scanTrace, NUM_ROWS, ROW_BITS,
    show List.range 8 = [0, 1, 2, 3, 4, 5, 6, 7] from rfl, List.flatMap_cons, List.flatMap_nil,
    List.filterMap_append, startShift_rowTrace]

theorem getLast?_rowTrace (a : List (List Nat)) (r : Nat) :
    (rowTrace a r).getLast? = some (Ev.timerStart 0) := by
  simp [rowTrace, show List.range 4 = [0, 1, 2, 3] from rfl, List.flatMap_cons, List.flatMap_nil,
    writeLayerTrace, planeOf, planeBytes, List.getLast?_append, LAYER_BITS]

theorem getLast?_scanTrace (a : List (List Nat)) :
    (scanTrace a).getLast? = some (Ev.timerStart 0) := by
  simp [scanTrace, NUM_ROWS, ROW_BITS,
    show List.range 8 = [0, 1, 2, 3, 4, 5, 6, 7] from rfl, List.flatMap_cons, List.flatMap_nil,
    List.getLast?_append, getLast?_rowTrace]

/-! ## The claims -/

/-- C1 (counterexample): the claim as stated is false on the code.  It
says the 16 column bits are packed most-significant first starting from
the *first* column, so that for the row `[15,14,...,0]` plane 0 packs to
`10101010 10101010` and plane 3 to `11111111 00000000`.  The code (and its
own unit test) packs the first column into the *least*-significant bit:
plane 0 is `01010101 01010101` and plane 3 is `00000000 11111111`, and bit
15 of the plane-0 word differs from bit 0 of the first column's value. -/
theorem C1_counterexample :
    prepare_row testGrid 0 = some [[85, 85], [51, 51], [15, 15], [0, 255]] ∧
    ¬ ((prepare_row testGrid 0).getD []).getD 0 [] = [0b10101010, 0b10101010] ∧
    ¬ ((prepare_row testGrid 0).getD []).getD 3 [] = [0b11111111, 0b00000000] ∧
    ¬ Nat.testBit (planeWord testRow 0) 15 = Nat.testBit (testRow.getD 0 0 % 16) 0 := by
  decide

/-- C1 (amended): for every row index `r < NUM_ROWS`, `prepare_row`
produces `LAYER_BITS` planes of `NUM_COLS / 8` bytes each, where for each
plane `p` the bit contributed by column `c` is bit `p` of
`brightness[c] mod 16`, and the 16 column bits are packed so that column
`c` occupies bit `c` of the 16-bit plane word — the *last* column occupies
the most-significant bit position — in big-endian byte order; in
particular, for the row `[15,14,...,0]`, plane 0 packs to
`01010101 01010101` and plane 3 packs to `00000000 11111111`. -/
theorem C1_prepare_row_planes (array : List (List Nat)) (r : Nat) (hr : r < NUM_ROWS)
    (row : List Nat) (hrow : array[r]? = some row) (hlen : row.length = 16) :
    ∃ planes, prepare_row array r = some planes ∧
      planes.length = LAYER_BITS ∧
      (∀ p, p < LAYER_BITS →
        planes.getD p [] = [planeWord row p / 256 % 256, planeWord row p % 256] ∧
        (planes.getD p []).length = NUM_COLS / 8 ∧
        (∀ c, c < NUM_COLS →
          Nat.testBit (planeWord row p) c = Nat.testBit (row.getD c 0 % 16) p)) ∧
      ((prepare_row testGrid 0).getD []).getD 0 [] = [0b01010101, 0b01010101] ∧
      ((prepare_row testGrid 0).getD []).getD 3 [] = [0b00000000, 0b11111111] := by
  refine ⟨(List.range LAYER_BITS).map (fun layer => planeBytes (planeWord row layer)),
    ?_, by simp [LAYER_BITS], ?_, by decide, by decide⟩
  · simp [prepare_row, hr, hrow]
  · intro p hp
    have hget : ((List.range LAYER_BITS).map
        (fun layer => planeBytes (planeWord row layer))).getD p [] =
          planeBytes (planeWord row p) := by
      rw [List.getD_eq_getElem?_getD, List.getElem?_map, List.getElem?_range hp]
      rfl
    refine ⟨by rw [hget]; rfl, by rw [hget]; simp [planeBytes, NUM_COLS, COL_BITS], ?_⟩
    intro c hc
    rw [show NUM_COLS = 16 from rfl] at hc
    exact planeWord_testBit row p hp c (by omega) (by omega)

/-- C1 witness: the amended claim instantiated at the crate's own test
grid and row 0. -/
theorem C1_prepare_row_planes_witness :
    ∃ planes, prepare_row testGrid 0 = some planes ∧
      planes.length = LAYER_BITS ∧
      (∀ p, p < LAYER_BITS →
        planes.getD p [] = [planeWord testRow p / 256 % 256, planeWord testRow p % 256] ∧
        (planes.getD p []).length = NUM_COLS / 8 ∧
        (∀ c, c < NUM_COLS →
          Nat.testBit (planeWord testRow p) c = Nat.testBit (testRow.getD c 0 % 16) p)) ∧
      ((prepare_row testGrid 0).getD []).getD 0 [] = [0b01010101, 0b01010101] ∧
      ((prepare_row testGrid 0).getD []).getD 3 [] = [0b00000000, 0b11111111] :=
  C1_prepare_row_planes testGrid 0 (by decide) testRow (by decide) (by decide)

/-- C8: `prepare_row` requires `row_index < NUM_ROWS`: for `r < NUM_ROWS`
(on a well-formed 8-row grid) it completes normally, and for
`r ≥ NUM_ROWS` the assertion fires — modelled as `none` (panic), not a
clamped index or a recoverable value. -/
theorem C8_prepare_row_assert (array : List (List Nat)) (r : Nat) :
    (r < NUM_ROWS → array.length = NUM_ROWS → (prepare_row array r).isSome = true) ∧
    (NUM_ROWS ≤ r → prepare_row array r = none) := by
  constructor
  · intro hr hlen
    rw [prepare_row_eq array r hlen hr]
    rfl
  · intro hr
    simp [prepare_row, Nat.not_lt.mpr hr]

/-- C8 witness: row 3 of a well-formed grid encodes; row 9 panics. -/
theorem C8_prepare_row_assert_witness :
    (prepare_row zeroGrid 3).isSome = true ∧ prepare_row zeroGrid 9 = none :=
  ⟨(C8_prepare_row_assert zeroGrid 3).1 (by decide) (by decide),
   (C8_prepare_row_assert zeroGrid 9).2 (by decide)⟩

/-- C9: the encoding ignores all but the low 4 bits of each brightness
value: `prepare_row` on a grid equals `prepare_row` on the grid with every
brightness value reduced mod 16, for every grid and row index. -/
theorem C9_mod16_invariant (array : List (List Nat)) (r : Nat) :
    prepare_row (array.map (fun row => row.map (fun b => b % 16))) r = prepare_row array r := by
  unfold prepare_row
  by_cases hr : r < NUM_ROWS
  · simp only [hr, if_true, List.getElem?_map]
    cases harr : array[r]? with
    | none => rfl
    | some row =>
        simp only [Option.map_some']
        congr 1
        apply List.map_congr_left
        intro layer hl
        have hl4 : layer < 4 := by simpa using List.mem_range.mp hl
        rw [planeWord_eq_encAux, planeWord_eq_encAux, encAux_mod16 layer hl4]
  · simp [hr]

/-- C2: in every fault-free `write_layer` with a row switch requested,
the pin events occur in the order: output-disable asserted, then the three
row-select lines driven to the binary encoding of `r` (lowest line =
bit 0), then latch asserted, then output-disable deasserted — so
output-disable is never observed deasserted between the row-address pin
writes and the latch assertion. -/
theorem C2_row_switch_order (layer : List Nat) (r : Nat) (s : St)
    (h1 : s.pinSched = []) (h2 : s.spiSched = []) :
    (write_layer layer (some r) s).1 = none ∧
    (write_layer layer (some r) s).2.trace.drop s.trace.length =
      Ev.pinSet .reg false :: layer.map (fun b => Ev.spiSend (invByte b)) ++
        [Ev.timerWait,
         Ev.pinSet .od true,
         Ev.pinSet .row0 (rowBit r 0), Ev.pinSet .row1 (rowBit r 1), Ev.pinSet .row2 (rowBit r 2),
         Ev.pinSet .reg true,
         Ev.pinSet .od false] ∧
    (∀ i, rowBit r i = Nat.testBit r i) := by
  have h := write_layer_ok layer (some r) s h1 h2
  refine ⟨by rw [h], ?_, ?_⟩
  · rw [h]
    show (s.trace ++ writeLayerTrace layer (some r)).drop s.trace.length = _
    rw [List.drop_left]
    simp [writeLayerTrace]
  · intro i
    have hbeq : ∀ a b : Nat, (a == b) = decide (a = b) := by
      intro a b
      by_cases hab : a = b <;> simp [hab]
    rw [rowBit, Nat.testBit_to_div_mod, Nat.and_one_is_mod, Nat.shiftRight_eq_div_pow, hbeq]

/-- C2 witness: a two-byte plane written to row 3 from the all-low state. -/
theorem C2_row_switch_order_witness :
    (write_layer [87, 63] (some 3) st0).1 = none ∧
    (write_layer [87, 63] (some 3) st0).2.trace.drop st0.trace.length =
      Ev.pinSet .reg false :: [87, 63].map (fun b => Ev.spiSend (invByte b)) ++
        [Ev.timerWait,
         Ev.pinSet .od true,
         Ev.pinSet .row0 (rowBit 3 0), Ev.pinSet .row1 (rowBit 3 1), Ev.pinSet .row2 (rowBit 3 2),
         Ev.pinSet .reg true,
         Ev.pinSet .od false] ∧
    (∀ i, rowBit 3 i = Nat.testBit 3 i) :=
  C2_row_switch_order [87, 63] 3 st0 rfl rfl

/-- C4: every fault-free `write_layer` performs, in order: latch
deasserted; each plane byte sent bit-inverted over SPI; the timer
busy-wait; and only then the latch assertion (no-row-switch path).  The
inversion sends `255 - (b mod 256)` for byte `b`. -/
theorem C4_write_layer_sequence (layer : List Nat) (s : St)
    (h1 : s.pinSched = []) (h2 : s.spiSched = []) :
    (write_layer layer none s).1 = none ∧
    (write_layer layer none s).2.trace.drop s.trace.length =
      Ev.pinSet .reg false :: layer.map (fun b => Ev.spiSend (invByte b)) ++
        [Ev.timerWait, Ev.pinSet .reg true] ∧
    (∀ b, invByte b = 255 - b % 256) := by
  have h := write_layer_ok layer none s h1 h2
  refine ⟨by rw [h], ?_, ?_⟩
  · rw [h]
    show (s.trace ++ writeLayerTrace layer none).drop s.trace.length = _
    rw [List.drop_left]
    simp [writeLayerTrace]
  · intro b
    have h255 : ∀ x, x < 256 → x ^^^ 255 = 255 - x := by decide
    have hb : b % 256 < 256 := Nat.mod_lt _ (by decide)
    simpa [invByte] using h255 (b % 256) hb

/-- C4 witness: the plane `[0x57, 0x3f]` from the crate test, whose
inverted bytes are `0xa8, 0xc0`. -/
theorem C4_write_layer_sequence_witness :
    (write_layer [87, 63] none st0).1 = none ∧
    (write_layer [87, 63] none st0).2.trace.drop st0.trace.length =
      Ev.pinSet .reg false :: [87, 63].map (fun b => Ev.spiSend (invByte b)) ++
        [Ev.timerWait, Ev.pinSet .reg true] ∧
    (∀ b, invByte b = 255 - b % 256) :=
  C4_write_layer_sequence [87, 63] st0 rfl rfl

/-- C3: a fault-free `scan` succeeds and its event trace is exactly the
rows `0..NUM_ROWS` in ascending order, each row contributing its
`LAYER_BITS` encoded planes in ascending plane order, with the row
selector `some r` passed exactly on plane 0 and `none` on all other
planes; the pass contains `NUM_ROWS * LAYER_BITS = 32` `write_layer`
calls (one timer busy-wait each). -/
theorem C3_scan_pass (s : St) (h1 : s.pinSched = []) (h2 : s.spiSched = [])
    (h3 : s.array.length = NUM_ROWS) :
    (scan s).1 = none ∧
    (scan s).2.trace.drop s.trace.length =
      (List.range NUM_ROWS).flatMap (fun r =>
        (List.range LAYER_BITS).flatMap (fun layer =>
          writeLayerTrace (planeOf s.array r layer) (if layer == 0 then some r else none) ++
            [Ev.timerStart (LAYER_BITS - layer - 1)])) ∧
    ((scan s).2.trace.drop s.trace.length).countP isWait = NUM_ROWS * LAYER_BITS ∧
    NUM_ROWS * LAYER_BITS = 32 := by
  have h := scan_ok s h1 h2 h3
  refine ⟨by rw [h], ?_, ?_, by decide⟩
  · rw [h]
    show (s.trace ++ scanTrace s.array).drop s.trace.length = _
    rw [List.drop_left]
    rfl
  · rw [h]
    show ((s.trace ++ scanTrace s.array).drop s.trace.length).countP isWait = _
    rw [List.drop_left]
    exact countP_isWait_scanTrace s.array

/-- C3 witness: a full pass from the all-low state over the test grid. -/
theorem C3_scan_pass_witness :
    (scan st0).1 = none ∧
    (scan st0).2.trace.drop st0.trace.length =
      (List.range NUM_ROWS).flatMap (fun r =>
        (List.range LAYER_BITS).flatMap (fun layer =>
          writeLayerTrace (planeOf st0.array r layer) (if layer == 0 then some r else none) ++
            [Ev.timerStart (LAYER_BITS - layer - 1)])) ∧
    ((scan st0).2.trace.drop st0.trace.length).countP isWait = NUM_ROWS * LAYER_BITS ∧
    NUM_ROWS * LAYER_BITS = 32 :=
  C3_scan_pass st0 rfl rfl rfl

/-- C5: in a fault-free `scan` pass, the sequence of armed timer shift
amounts is `[3, 2, 1, 0]` for every row, i.e. the duration armed right
after plane `p` is `base_period << (LAYER_BITS - 1 - p)`; plane 0 receives
the largest shift (`LAYER_BITS - 1 = 3`) and the last plane shift 0. -/
theorem C5_bam_durations (s : St) (h1 : s.pinSched = []) (h2 : s.spiSched = [])
    (h3 : s.array.length = NUM_ROWS) :
    ((scan s).2.trace.drop s.trace.length).filterMap startShift =
      (List.range NUM_ROWS).flatMap (fun _ =>
        (List.range LAYER_BITS).map (fun p => LAYER_BITS - 1 - p)) ∧
    (∀ p, p < LAYER_BITS → LAYER_BITS - 1 - p ≤ LAYER_BITS - 1 - 0) ∧
    LAYER_BITS - 1 - 0 = 3 ∧ LAYER_BITS - 1 - (LAYER_BITS - 1) = 0 := by
  have h := scan_ok s h1 h2 h3
  refine ⟨?_, ?_, by decide, by decide⟩
  · rw [h]
    show ((s.trace ++ scanTrace s.array).drop s.trace.length).filterMap startShift = _
    rw [List.drop_left, startShift_scanTrace]
    rfl
  · intro p hp
    exact Nat.sub_le_sub_left (Nat.zero_le p) (LAYER_BITS - 1)

/-- C5 witness: the shift list of a pass from the all-low state. -/
theorem C5_bam_durations_witness :
    ((scan st0).2.trace.drop st0.trace.length).filterMap startShift =
      (List.range NUM_ROWS).flatMap (fun _ =>
        (List.range LAYER_BITS).map (fun p => LAYER_BITS - 1 - p)) ∧
    (∀ p, p < LAYER_BITS → LAYER_BITS - 1 - p ≤ LAYER_BITS - 1 - 0) ∧
    LAYER_BITS - 1 - 0 = 3 ∧ LAYER_BITS - 1 - (LAYER_BITS - 1) = 0 :=
  C5_bam_durations st0 rfl rfl rfl

/-- C10: a fault-free `scan` arms the timer exactly once per write —
`NUM_ROWS * LAYER_BITS` times, matching the count of timer busy-waits —
and the very last event of the pass is the arming with shift
`LAYER_BITS - 1 - (LAYER_BITS - 1) = 0`; in particular no timer wait
follows the final arming before `scan` returns. -/
theorem C10_scan_ends_armed (s : St) (h1 : s.pinSched = []) (h2 : s.spiSched = [])
    (h3 : s.array.length = NUM_ROWS) :
    (scan s).1 = none ∧
    ((scan s).2.trace.drop s.trace.length).countP isStart = NUM_ROWS * LAYER_BITS ∧
    ((scan s).2.trace.drop s.trace.length).countP isWait = NUM_ROWS * LAYER_BITS ∧
    ((scan s).2.trace.drop s.trace.length).getLast? =
      some (Ev.timerStart (LAYER_BITS - 1 - (LAYER_BITS - 1))) := by
  have h := scan_ok s h1 h2 h3
  refine ⟨by rw [h], ?_, ?_, ?_⟩
  · rw [h]
    show ((s.trace ++ scanTrace s.array).drop s.trace.length).countP isStart = _
    rw [List.drop_left]
    exact countP_isStart_scanTrace s.array
  · rw [h]
    show ((s.trace ++ scanTrace s.array).drop s.trace.length).countP isWait = _
    rw [List.drop_left]
    exact countP_isWait_scanTrace s.array
  · rw [h]
    show ((s.trace ++ scanTrace s.array).drop s.trace.length).getLast? = _
    rw [List.drop_left, getLast?_scanTrace]
    rfl

/-- C10 witness: a pass from the all-low state over the test grid. -/
theorem C10_scan_ends_armed_witness :
    (scan st0).1 = none ∧
    ((scan st0).2.trace.drop st0.trace.length).countP isStart = NUM_ROWS * LAYER_BITS ∧
    ((scan st0).2.trace.drop st0.trace.length).countP isWait = NUM_ROWS * LAYER_BITS ∧
    ((scan st0).2.trace.drop st0.trace.length).getLast? =
      some (Ev.timerStart (LAYER_BITS - 1 - (LAYER_BITS - 1))) :=
  C10_scan_ends_armed st0 rfl rfl rfl

/-- Initial state for the C6 counterexample: the latch is asserted before
the call (exactly the state left by any successful `write_layer`), and the
SPI transport is set to fail on the second byte with detail 7. -/
def st6 : St :=
  { row0 := false, row1 := false, row2 := false, reg := true, od := false,
    pinSched := [], spiSched := [none, some 7], trace := [], array := testGrid }

/-- C6 (counterexample): the claim as stated says a transport failure
leaves the latch line in its *pre-write* (deasserted) state.  The
pre-write state need not be deasserted: starting with the latch asserted
(as it is after every successful write), a failure on the second byte
leaves the latch deasserted — not equal to its pre-write state. -/
theorem C6_counterexample :
    st6.reg = true ∧
    (write_layer [87, 63, 17] none st6).1 = some (.SPIError 7) ∧
    (write_layer [87, 63, 17] none st6).2.reg = false ∧
    ¬ (write_layer [87, 63, 17] none st6).2.reg = st6.reg := by
  decide

/-- C6 (amended): if the serial transport fails on byte `k` (0-based) of
a plane, `write_layer` aborts immediately — exactly the bytes before the
failing one were sent — returns `SPIError` with the transport's error
detail, and leaves the latch line *deasserted* (the latch drop at the
start of the write is not rolled back); the latch is not asserted at any
point after the failure. -/
theorem C6_spi_abort (layer : List Nat) (row : Option Nat) (k e : Nat)
    (rest : List (Option Nat)) (s : St)
    (h1 : s.pinSched = []) (h2 : s.spiSched = List.replicate k none ++ some e :: rest)
    (hk : k < layer.length) :
    (write_layer layer row s).1 = some (.SPIError e) ∧
    (write_layer layer row s).2.reg = false ∧
    (write_layer layer row s).2.trace.drop s.trace.length =
      Ev.pinSet .reg false :: (layer.take k).map (fun b => Ev.spiSend (invByte b)) ∧
    Ev.pinSet .reg true ∉ (write_layer layer row s).2.trace.drop s.trace.length := by
  have h := write_layer_spi_fail layer row k e rest s h1 h2 hk
  refine ⟨by rw [h], by rw [h], ?_, ?_⟩
  · rw [h]
    show (s.trace ++ _).drop s.trace.length = _
    rw [List.drop_left]
  · rw [h]
    show Ev.pinSet .reg true ∉ (s.trace ++ _).drop s.trace.length
    rw [List.drop_left]
    intro hmem
    rcases List.mem_cons.mp hmem with hco | hmem2
    · simp at hco
    · obtain ⟨b, -, hfb⟩ := List.mem_map.mp hmem2
      simp at hfb

/-- C6 witness: failure on the second byte (`k = 1`) of a three-byte
plane from the latch-asserted state `st6`. -/
theorem C6_spi_abort_witness :
    (write_layer [87, 63, 17] none st6).1 = some (.SPIError 7) ∧
    (write_layer [87, 63, 17] none st6).2.reg = false ∧
    (write_layer [87, 63, 17] none st6).2.trace.drop st6.trace.length =
      Ev.pinSet .reg false :: ([87, 63, 17].take 1).map (fun b => Ev.spiSend (invByte b)) ∧
    Ev.pinSet .reg true ∉ (write_layer [87, 63, 17] none st6).2.trace.drop st6.trace.length :=
  C6_spi_abort [87, 63, 17] none 1 7 [] st6 rfl rfl (by decide)

/-- C7: if a pin drive fails in the row-switch branch after
output-disable has been asserted (pin-operation index `2 ≤ j ≤ 5`: the
three row-select writes or the latch assertion), `write_layer` returns
immediately with `PinError` carrying the pin's error detail, no later
step of the sequence runs (no latch-assert and no unblank event is
emitted), and nothing is rolled back: output-disable remains asserted,
leaving the display blanked. -/
theorem C7_pin_fail_leaves_blanked (layer : List Nat) (r j e : Nat)
    (rest : List (Option Nat)) (s : St)
    (h1 : s.pinSched = List.replicate j none ++ some e :: rest) (h2 : s.spiSched = [])
    (hj2 : 2 ≤ j) (hj5 : j ≤ 5) :
    (write_layer layer (some r) s).1 = some (.PinError e) ∧
    (write_layer layer (some r) s).2.od = true ∧
    (write_layer layer (some r) s).2.reg = false ∧
    Ev.pinSet .reg true ∉ (write_layer layer (some r) s).2.trace.drop s.trace.length ∧
    Ev.pinSet .od false ∉ (write_layer layer (some r) s).2.trace.drop s.trace.length :=
  write_layer_pin_fail layer r j e rest s h1 h2 hj2 hj5

/-- Initial state for the C7 witness: the third pin operation (the first
row-select write) fails with detail 5. -/
def st7 : St := { st0 with pinSched := [none, none, some 5] }

/-- C7 witness: the first row-select pin write (`j = 2`) fails with
detail 5 while writing a two-byte plane to row 6. -/
theorem C7_pin_fail_leaves_blanked_witness :
    (write_layer [1, 2] (some 6) st7).1 = some (.PinError 5) ∧
    (write_layer [1, 2] (some 6) st7).2.od = true ∧
    (write_layer [1, 2] (some 6) st7).2.reg = false ∧
    Ev.pinSet .reg true ∉ (write_layer [1, 2] (some 6) st7).2.trace.drop st7.trace.length ∧
    Ev.pinSet .od false ∉ (write_layer [1, 2] (some 6) st7).2.trace.drop st7.trace.length :=
  C7_pin_fail_leaves_blanked [1, 2] 6 2 5 [] st7 (by decide) rfl (by decide) (by decide)

end LedMatrix
